import Mathlib

/-!
Verification of the order-state reconciliation core of the mp-backend
checkout server (src/server.js).

The JavaScript source is shallowly embedded: JS numbers are modelled as
rationals extended with the non-finite values NaN and positive and negative
infinity; absent object fields are modelled as Option; the in-memory
order Map is modelled as an association list with JS Map semantics
(insertion order preserved, set replaces in place); the express handlers
become pure functions taking the result of the external MercadoPago call
as an explicit parameter.
-/

/-- A JavaScript number: a finite rational, or one of the non-finite
values NaN, Infinity, -Infinity. -/
inductive JsNum where
  | finite (q : ℚ)
  | nan
  | inf
  | negInf
deriving DecidableEq, Repr

/-- JS Number.isFinite. -/
def JsNum.isFinite : JsNum → Bool
  | .finite _ => true
  | _ => false

/-- The JS comparison a <= b, false whenever NaN is involved. -/
def JsNum.jsLe : JsNum → JsNum → Bool
  | .nan, _ => false
  | _, .nan => false
  | .negInf, _ => true
  | _, .negInf => false
  | _, .inf => true
  | .inf, _ => false
  | .finite a, .finite b => decide (a ≤ b)

/-- The JS comparison a < b, false whenever NaN is involved. -/
def JsNum.jsLt : JsNum → JsNum → Bool
  | .nan, _ => false
  | _, .nan => false
  | .negInf, .negInf => false
  | .negInf, _ => true
  | _, .negInf => false
  | .inf, _ => false
  | _, .inf => true
  | .finite a, .finite b => decide (a < b)

/-- The whitespace characters stripped by JS String.prototype.trim
(restricted to the common ASCII whitespace). -/
def jsWhitespaceChar (c : Char) : Bool :=
  c = ' ' || c = '\t' || c = '\n' || c = '\r' || c = '\x0b' || c = '\x0c'

/-- JS String.prototype.trim: strip whitespace from both ends. -/
def jsTrim (s : String) : String :=
  String.mk (((s.data.dropWhile jsWhitespaceChar).reverse.dropWhile jsWhitespaceChar).reverse)

/-- JS String.prototype.toLowerCase, restricted to the ASCII mapping. -/
def jsToLowerChar (c : Char) : Char :=
  if 'A' ≤ c ∧ c ≤ 'Z' then Char.ofNat (c.toNat + 32) else c

/-- JS String.prototype.toLowerCase over a whole string. -/
def jsToLower (s : String) : String := String.mk (s.data.map jsToLowerChar)

/-- JS String.prototype.slice(0, n). -/
def jsTake (s : String) (n : Nat) : String := String.mk (s.data.take n)

/-- JS expression a || b for a string-valued a that may be absent:
falsy (undefined or the empty string) falls through to b. -/
def jsOrStr (a : Option String) (b : String) : String :=
  match a with
  | none => b
  | some s => if s = "" then b else s

/-- JS expression a || b where both sides may be absent strings. -/
def jsOrOpt (a b : Option String) : Option String :=
  match a with
  | none => b
  | some s => if s = "" then b else some s

/-- True when a JS string value is falsy: undefined or empty. -/
def strFalsy : Option String → Bool
  | none => true
  | some s => s == ""

/-- Embedding of toSafeString from src/server.js: String(v ?? "").trim(),
empty stays empty, otherwise sliced to maxLen. -/
def toSafeString (v : Option String) (maxLen : Nat) : String :=
  let s := jsTrim (v.getD "")
  if s = "" then "" else if s.length > maxLen then jsTake s maxLen else s

/-- Embedding of toSafeNumber from src/server.js: Number(v) is the value
itself for a number field and NaN for an absent field; a non-finite
result falls back to the given default. -/
def toSafeNumber (v : Option JsNum) (fallback : JsNum) : JsNum :=
  let n := match v with
    | none => JsNum.nan
    | some m => m
  if n.isFinite then n else fallback

/-- Embedding of normalizeShippingOption from src/server.js: anything
other than the literal "pickup" (case-insensitive, trimmed) is "delivery". -/
def normalizeShippingOption (v : Option String) : String :=
  let s := jsToLower (jsTrim (jsOrStr v ""))
  if s = "pickup" then "pickup" else "delivery"

/-- Embedding of normalizeCommuneLabel from src/server.js. -/
def normalizeCommuneLabel (commune : String) : String :=
  let c := jsToLower (jsTrim commune)
  if c = "" then ""
  else if c = "la-serena" ∨ c = "laserena" ∨ c = "la serena" then "La Serena"
  else if c = "coquimbo" then "Coquimbo"
  else commune

/-- A MercadoPago line item as built by validateAndBuildMpItems. -/
structure MpItem where
  title : String
  quantity : JsNum
  unit_price : JsNum
  currency_id : String
deriving DecidableEq, Repr

/-- A raw submitted item: fields may be absent. The front sends
title, unitprice, quantity. -/
structure RawItem where
  title : Option String
  quantity : Option JsNum
  unitprice : Option JsNum
deriving DecidableEq, Repr

/-- The items field of the request body: an array, or some non-array value
(rejected by the Array.isArray check). -/
inductive ItemsField where
  | arr (l : List RawItem)
  | nonArray
deriving DecidableEq, Repr

/-- The per-item mapping inside validateAndBuildMpItems. -/
def buildMpItem (i : RawItem) : MpItem :=
  { title := toSafeString i.title 120
    quantity := toSafeNumber i.quantity (JsNum.finite 1)
    unit_price := toSafeNumber i.unitprice (JsNum.finite 0)
    currency_id := "CLP" }

/-- The invalid-item predicate inside validateAndBuildMpItems. The
Number.isFinite checks are kept even though toSafeNumber only ever
produces finite numbers, mirroring the source. -/
def itemInvalid (i : MpItem) : Bool :=
  (i.title == "") || !i.quantity.isFinite || JsNum.jsLe i.quantity (JsNum.finite 0) ||
    JsNum.jsLt (JsNum.finite 99) i.quantity || !i.unit_price.isFinite ||
    JsNum.jsLe i.unit_price (JsNum.finite 0)

/-- The error payload of validateAndBuildMpItems: the message and, for the
invalid-items case, the echoed built items. -/
structure ItemsErr where
  error : String
  mpItems : Option (List MpItem)
deriving DecidableEq, Repr

/-- Embedding of validateAndBuildMpItems from src/server.js. -/
def validateAndBuildMpItems (items : ItemsField) : Except ItemsErr (List MpItem) :=
  match items with
  | .nonArray => .error ⟨"items vacío", none⟩
  | .arr l =>
    if l.isEmpty then .error ⟨"items vacío", none⟩
    else
      let mpItems := l.map buildMpItem
      if mpItems.length > 50 then .error ⟨"Demasiados items (max 50)", none⟩
      else if mpItems.any itemInvalid then .error ⟨"items inválidos", some mpItems⟩
      else .ok mpItems

/-- Raw delivery block of a submission: fields may be absent. -/
structure RawDelivery where
  name : Option String
  phone : Option String
  address : Option String
  commune : Option String
  notes : Option String
deriving DecidableEq, Repr

/-- Raw pickup block of a submission: fields may be absent. -/
structure RawPickup where
  name : Option String
  phone : Option String
  rut : Option String
deriving DecidableEq, Repr

/-- Validated delivery data as stored on the order. -/
structure DeliveryData where
  name : String
  phone : String
  address : String
  commune : String
  notes : String
deriving DecidableEq, Repr

/-- Validated pickup data as stored on the order. -/
structure PickupData where
  name : String
  phone : String
  rut : String
deriving DecidableEq, Repr

/-- Result of validateAndBuildClientData: exactly one side is populated. -/
structure ClientData where
  delivery : Option DeliveryData
  pickup : Option PickupData
deriving DecidableEq, Repr

/-- Embedding of validateAndBuildClientData from src/server.js. The
shippingOption argument has already been normalized by the caller. -/
def validateAndBuildClientData (shippingOption : String) (delivery : Option RawDelivery)
    (pickup : Option RawPickup) : Except String ClientData :=
  if shippingOption = "delivery" then
    let name := toSafeString (delivery.bind (·.name)) 120
    let phone := toSafeString (delivery.bind (·.phone)) 40
    let address := toSafeString (delivery.bind (·.address)) 180
    let commune := toSafeString (delivery.bind (·.commune)) 40
    let notes := toSafeString (delivery.bind (·.notes)) 300
    if name = "" ∨ phone = "" ∨ address = "" then
      .error "Faltan datos de delivery (name/phone/address)"
    else
      .ok { delivery := some { name, phone, address, commune, notes }, pickup := none }
  else
    let name := toSafeString (pickup.bind (·.name)) 120
    let phone := toSafeString (pickup.bind (·.phone)) 40
    let rut := toSafeString (pickup.bind (·.rut)) 30
    if name = "" ∨ phone = "" then
      .error "Faltan datos de retiro (name/phone)"
    else
      .ok { delivery := none, pickup := some { name, phone, rut } }

/-- An order record as stored in the in-memory orders Map. paymentId and
paymentStatusDetail are absent until a webhook reconciliation. -/
structure Order where
  status : String
  items : List MpItem
  shippingOption : String
  shippingCost : JsNum
  delivery : Option DeliveryData
  pickup : Option PickupData
  createdAt : Nat
  updatedAt : Nat
  paymentId : Option Nat
  paymentStatusDetail : Option String
deriving DecidableEq, Repr

/-- The orders Map, modelled as an association list in insertion order
(JS Map iteration order is insertion order). -/
abbrev Store := List (String × Order)

/-- Map.get: the value of the first (and only) entry with the given key. -/
def Store.get : Store → String → Option Order
  | [], _ => none
  | (k', v) :: t, k => if k' = k then some v else Store.get t k

/-- Map.set: replace in place when the key is present, else append
(JS Map keeps the original insertion position on overwrite). -/
def Store.set : Store → String → Order → Store
  | [], k, v => [(k, v)]
  | (k', v') :: t, k, v =>
    if k' = k then (k, v) :: t else (k', v') :: Store.set t k v

/-- Server configuration relevant to the handlers: the MercadoPago access
token ("" when unset) and the configured delivery cost. -/
structure Config where
  mpAccessToken : String
  deliveryCost : JsNum
deriving DecidableEq, Repr

/-- The request body of POST /create_preference. The shippingCost field is
carried to record that some clients send it; the handler never reads it. -/
structure CreateReq where
  shippingOption : Option String
  items : Option ItemsField
  shippingCost : Option JsNum
  delivery : Option RawDelivery
  pickup : Option RawPickup
deriving DecidableEq, Repr

/-- The synthetic shipping line item pushed when the shipping cost is
positive. -/
def envioItem (shipCost : JsNum) : MpItem :=
  { title := "Envío (Delivery)", quantity := JsNum.finite 1,
    unit_price := shipCost, currency_id := "CLP" }

/-- The JSON responses of POST /create_preference. -/
inductive CPResponse where
  | ok (initpoint : String) (orderId : String) (preferenceId : String)
  | configError (error : String)
  | badRequest (error : String) (mpItems : Option (List MpItem))
  | upstreamError (status : Nat) (error : String) (detail : String)
deriving DecidableEq, Repr

/-- The HTTP status code of each create_preference response. -/
def CPResponse.httpStatus : CPResponse → Nat
  | .ok _ _ _ => 200
  | .configError _ => 500
  | .badRequest _ _ => 400
  | .upstreamError s _ _ => s

/-- The data the handler reads off a validated submission before storing
the order and contacting MercadoPago. -/
structure ValidatedSubmission where
  shippingOption : String
  mpItems : List MpItem
  client : ClientData
  shipCost : JsNum
  finalItems : List MpItem
deriving DecidableEq, Repr

/-- The validation and shipping-cost stage of POST /create_preference,
covering src/server.js up to the orders.set call: token check, shipping
normalization, item validation, client-data validation, server-side
shipping cost, and the synthetic shipping line. -/
def createPreferenceStage (cfg : Config) (body : CreateReq) :
    Except CPResponse ValidatedSubmission :=
  if cfg.mpAccessToken = "" then
    .error (.configError "Falta MP_ACCESS_TOKEN en .env")
  else
    let shippingOption := normalizeShippingOption body.shippingOption
    let items := body.items.getD (ItemsField.arr [])
    match validateAndBuildMpItems items with
    | .error e => .error (.badRequest e.error e.mpItems)
    | .ok mpItems =>
      match validateAndBuildClientData shippingOption body.delivery body.pickup with
      | .error msg => .error (.badRequest msg none)
      | .ok client =>
        let shipCost := if shippingOption = "delivery" then cfg.deliveryCost
                        else JsNum.finite 0
        let finalItems :=
          if JsNum.jsLt (JsNum.finite 0) shipCost then mpItems ++ [envioItem shipCost]
          else mpItems
        .ok { shippingOption, mpItems, client, shipCost, finalItems }

/-- The order record written by orders.set in POST /create_preference. -/
def buildOrder (v : ValidatedSubmission) (now : Nat) : Order :=
  { status := "created", items := v.finalItems, shippingOption := v.shippingOption,
    shippingCost := v.shipCost, delivery := v.client.delivery,
    pickup := v.client.pickup, createdAt := now, updatedAt := now,
    paymentId := none, paymentStatusDetail := none }

/-- The successful response of the MercadoPago preference call. -/
structure PrefData where
  init_point : String
  id : String
deriving DecidableEq, Repr

/-- A failed MercadoPago call as seen in the catch block:
err.response.status and err.response.data may be absent (network error),
err.message is stringified as fallback. -/
structure UpstreamErr where
  responseStatus : Option Nat
  responseData : Option String
  message : String
deriving DecidableEq, Repr

/-- The status of the error response: err.response.status || 500. -/
def upstreamStatus (e : UpstreamErr) : Nat :=
  match e.responseStatus with
  | none => 500
  | some n => if n = 0 then 500 else n

/-- The detail of the error response: mpData || String(err.message). -/
def upstreamDetail (e : UpstreamErr) : String :=
  jsOrStr e.responseData e.message

/-- The store state right after the orders.set call in
POST /create_preference, i.e. at the moment the MercadoPago preference
request is issued. -/
def storeAfterInsert (cfg : Config) (store : Store) (body : CreateReq)
    (orderId : String) (now : Nat) : Store :=
  match createPreferenceStage cfg body with
  | .error _ => store
  | .ok v => Store.set store orderId (buildOrder v now)

/-- Embedding of the POST /create_preference handler. The generated order
id, the current time and the result of the external preference call are
explicit parameters. Returns the JSON response and the final store. -/
def createPreference (cfg : Config) (store : Store) (body : CreateReq)
    (orderId : String) (now : Nat)
    (callResult : Except UpstreamErr PrefData) : CPResponse × Store :=
  match createPreferenceStage cfg body with
  | .error resp => (resp, store)
  | .ok v =>
    let store' := Store.set store orderId (buildOrder v now)
    match callResult with
    | .ok pd => (.ok pd.init_point orderId pd.id, store')
    | .error e =>
      (.upstreamError (upstreamStatus e) "No se pudo crear preferencia"
        (upstreamDetail e), store')

/-- The payment object fetched from GET /v1/payments/:id. -/
structure Payment where
  id : Nat
  status : String
  status_detail : Option String
  external_reference : Option String
deriving DecidableEq, Repr

/-- The reconciliation merge of the webhook handler: look up the order by
the payment's external reference and overwrite status, paymentId,
paymentStatusDetail and updatedAt, preserving every other field. -/
def applyPayment (s : Store) (p : Payment) (now : Nat) : Store :=
  match p.external_reference with
  | none => s
  | some oid =>
    if oid = "" then s
    else
      match Store.get s oid with
      | none => s
      | some old =>
        Store.set s oid
          { old with status := p.status, paymentId := some p.id,
                     paymentStatusDetail := p.status_detail, updatedAt := now }

/-- The notification request of POST /webhook/mercadopago: topic and type
query parameters, and the payment id from the query (id or data.id) or
the body (data.id). -/
structure WebhookReq where
  qTopic : Option String
  qType : Option String
  qId : Option String
  qDataId : Option String
  bodyDataId : Option String
deriving DecidableEq, Repr

/-- req.query.topic || req.query.type. -/
def WebhookReq.topic (w : WebhookReq) : Option String := jsOrOpt w.qTopic w.qType

/-- req.query.id || req.query[data.id] || req.body.data.id. -/
def WebhookReq.notifId (w : WebhookReq) : Option String :=
  jsOrOpt w.qId (jsOrOpt w.qDataId w.bodyDataId)

/-- The guard: topic && topic !== "payment" skips reconciliation. -/
def WebhookReq.topicSkip (w : WebhookReq) : Bool :=
  match w.topic with
  | none => false
  | some t => !(t == "") && !(t == "payment")

/-- Embedding of the POST /webhook/mercadopago handler. The 200
acknowledgment is sent unconditionally before any work; the fetched
payment (or the fetch failure, swallowed by the catch) is an explicit
parameter. Returns the HTTP status sent and the final store. -/
def webhookHandler (hasToken : Bool) (s : Store) (w : WebhookReq)
    (fetched : Except String Payment) (now : Nat) : Nat × Store :=
  let s' :=
    if strFalsy w.notifId then s
    else if w.topicSkip then s
    else if !hasToken then s
    else
      match fetched with
      | .error _ => s
      | .ok p => applyPayment s p now
  (200, s')

/-- The derived detail object of the query layer (buildDetailObject). -/
structure DetailObj where
  type : String
  name : String
  phone : String
  address : String
  commune : String
  notes : String
  rut : String
deriving DecidableEq, Repr

/-- Embedding of buildDetailObject from src/server.js. Commune
normalization happens here, on read. -/
def buildDetailObject (o : Order) : DetailObj :=
  let ty := if o.shippingOption = "pickup" then "pickup" else "delivery"
  if ty = "delivery" then
    { type := ty
      name := jsOrStr (o.delivery.map (·.name)) ""
      phone := jsOrStr (o.delivery.map (·.phone)) ""
      address := jsOrStr (o.delivery.map (·.address)) ""
      commune := normalizeCommuneLabel (jsOrStr (o.delivery.map (·.commune)) "")
      notes := jsOrStr (o.delivery.map (·.notes)) ""
      rut := "" }
  else
    { type := ty
      name := jsOrStr (o.pickup.map (·.name)) ""
      phone := jsOrStr (o.pickup.map (·.phone)) ""
      address := "", commune := "", notes := ""
      rut := jsOrStr (o.pickup.map (·.rut)) "" }

/-- Embedding of buildDetailText from src/server.js. -/
def buildDetailText (o : Order) : String :=
  let d := buildDetailObject o
  if d.type = "delivery" then
    let parts := (if d.address ≠ "" then [d.address] else []) ++
                 (if d.commune ≠ "" then [d.commune] else [])
    let base := if parts.isEmpty then "-" else String.intercalate ", " parts
    if d.notes ≠ "" then "Delivery: " ++ base ++ ". Notas: " ++ d.notes
    else "Delivery: " ++ base
  else
    if d.rut ≠ "" then "Retiro en tienda. RUT: " ++ d.rut else "Retiro en tienda."

/-- An entry of the GET /orders and GET /payments responses:
the id, the spread order record, and the derived detail fields. -/
structure EnrichedOrder where
  id : String
  order : Order
  detail : DetailObj
  detailText : String
deriving DecidableEq, Repr

/-- The per-entry enrichment map of GET /orders and GET /payments. -/
def enrich (e : String × Order) : EnrichedOrder :=
  { id := e.1, order := e.2, detail := buildDetailObject e.2,
    detailText := buildDetailText e.2 }

/-- The sort key of GET /orders: createdAt || 0 (createdAt is always a
stored Nat, so the JS falsy fallback is the identity). -/
def createdKey (e : EnrichedOrder) : Nat := e.order.createdAt

/-- The sort key of GET /payments: updatedAt || createdAt || 0. -/
def updatedKey (e : EnrichedOrder) : Nat :=
  if e.order.updatedAt = 0 then e.order.createdAt else e.order.updatedAt

/-- The sort order induced by the JS comparator (bKey - aKey): a comes
before b exactly when the key of b is at most the key of a. -/
def keyDescLe (key : EnrichedOrder → Nat) (a b : EnrichedOrder) : Bool :=
  decide (key b ≤ key a)

/-- Embedding of GET /orders: enrich every entry (Map iteration order is
insertion order) and sort by createdAt descending. JS Array sort is
required to be stable, hence the stable mergeSort. -/
def listOrdersEndpoint (s : Store) : List EnrichedOrder :=
  (s.map enrich).mergeSort (keyDescLe createdKey)

/-- Embedding of GET /payments: enrich, filter to approved, sort by
updatedAt (falling back to createdAt) descending. -/
def listPaymentsEndpoint (s : Store) : List EnrichedOrder :=
  ((s.map enrich).filter (fun e => e.order.status == "approved")).mergeSort
    (keyDescLe updatedKey)

/-- The operations that mutate the order store. -/
inductive Op where
  | create (cfg : Config) (body : CreateReq) (orderId : String) (now : Nat)
      (callResult : Except UpstreamErr PrefData)
  | webhook (hasToken : Bool) (w : WebhookReq) (fetched : Except String Payment)
      (now : Nat)

/-- The store transition of one handler invocation. -/
def stepOp (s : Store) : Op → Store
  | .create cfg body orderId now cr => (createPreference cfg s body orderId now cr).2
  | .webhook hasToken w fetched now => (webhookHandler hasToken s w fetched now).2

/-- Running a sequence of handler invocations. -/
def runOps (s : Store) : List Op → Store
  | [] => s
  | op :: ops => runOps (stepOp s op) ops

/-- Environment assumptions on one operation: freshly generated order ids
do not collide (crypto.randomUUID), and the provider never reports the
local-only status "created" for a payment. -/
def OpOk (s : Store) : Op → Prop
  | .create _ _ orderId _ _ => Store.get s orderId = none
  | .webhook _ _ fetched _ => ∀ p, fetched = .ok p → p.status ≠ "created"

/-- The environment assumptions hold along a whole trace. -/
def TraceOk : Store → List Op → Prop
  | _, [] => True
  | s, op :: ops => OpOk s op ∧ TraceOk (stepOp s op) ops

/-- Equality of order records on every field except updatedAt. -/
def OrderEqvExceptUpdatedAt (a b : Order) : Prop :=
  a.status = b.status ∧ a.items = b.items ∧ a.shippingOption = b.shippingOption ∧
  a.shippingCost = b.shippingCost ∧ a.delivery = b.delivery ∧ a.pickup = b.pickup ∧
  a.createdAt = b.createdAt ∧ a.paymentId = b.paymentId ∧
  a.paymentStatusDetail = b.paymentStatusDetail

/-- Lifted to optional records: both absent, or both present and equal
except updatedAt. -/
def OptEqvExceptUpdatedAt : Option Order → Option Order → Prop
  | none, none => True
  | some a, some b => OrderEqvExceptUpdatedAt a b
  | _, _ => False

/-- The empty-store validation condition used in C6: the items field is
not an array, or the list is empty, too long, or contains an item whose
coerced title, quantity or unit price fails a validation check. -/
def rawItemBad (i : RawItem) : Prop :=
  toSafeString i.title 120 = "" ∨
  (toSafeNumber i.quantity (JsNum.finite 1)).isFinite = false ∨
  JsNum.jsLe (toSafeNumber i.quantity (JsNum.finite 1)) (JsNum.finite 0) = true ∨
  JsNum.jsLt (JsNum.finite 99) (toSafeNumber i.quantity (JsNum.finite 1)) = true ∨
  (toSafeNumber i.unitprice (JsNum.finite 0)).isFinite = false ∨
  JsNum.jsLe (toSafeNumber i.unitprice (JsNum.finite 0)) (JsNum.finite 0) = true

/-- A rejecting items field: not an array, empty, more than 50 items, or
some item fails a per-item check. -/
def itemsFieldBad (f : ItemsField) : Prop :=
  f = ItemsField.nonArray ∨
  ∃ l, f = ItemsField.arr l ∧
    (l = [] ∨ l.length > 50 ∨ ∃ i ∈ l, rawItemBad i)

/-- Concrete configuration used to instantiate the theorems: token set,
delivery fee 4990 (the default in src/server.js). -/
def cfgW : Config := { mpAccessToken := "tok", deliveryCost := JsNum.finite 4990 }

/-- Concrete raw item: the Bread item of the spec scenario. -/
def itemW : RawItem :=
  { title := some "Bread", quantity := some (JsNum.finite 2),
    unitprice := some (JsNum.finite 1000) }

/-- Concrete raw delivery block of the spec scenario. -/
def rawDeliveryW : RawDelivery :=
  { name := some "A", phone := some "123", address := some "X",
    commune := some "coquimbo", notes := none }

/-- Concrete submission body of the spec scenario. -/
def bodyW : CreateReq :=
  { shippingOption := some "delivery"
    items := some (.arr [itemW])
    shippingCost := none
    delivery := some rawDeliveryW
    pickup := none }

/-- The built Bread line item. -/
def breadW : MpItem :=
  { title := "Bread", quantity := JsNum.finite 2, unit_price := JsNum.finite 1000,
    currency_id := "CLP" }

/-- The validated submission produced by the stage on the scenario body. -/
def vW : ValidatedSubmission :=
  { shippingOption := "delivery"
    mpItems := [breadW]
    client := { delivery := some { name := "A", phone := "123", address := "X",
                                   commune := "coquimbo", notes := "" }
                pickup := none }
    shipCost := JsNum.finite 4990
    finalItems := [breadW, envioItem (JsNum.finite 4990)] }

/-- A concrete stored order used in the webhook instantiations. -/
def ordW : Order := buildOrder vW 5

/-- A one-order store keyed by o1. -/
def sW : Store := [("o1", ordW)]

/-- A payment notification for the stored order o1. -/
def pW : Payment :=
  { id := 7, status := "approved", status_detail := some "accredited",
    external_reference := some "o1" }

/-- A payment whose external reference matches no stored order. -/
def pUnknownW : Payment :=
  { id := 9, status := "approved", status_detail := none,
    external_reference := some "zzz" }

/-- A concrete webhook request carrying topic payment and an id. -/
def whW : WebhookReq :=
  { qTopic := some "payment", qType := none, qId := some "7",
    qDataId := none, bodyDataId := none }

/-- The store sW after reconciling pW at time 10. -/
def sApprovedW : Store := applyPayment sW pW 10

/-- A successful preference-call response used in instantiations. -/
def prefW : PrefData := { init_point := "https://mp/init", id := "pref1" }

/-- A raw item with no quantity field. -/
def itemNoQtyW : RawItem :=
  { title := some "Bread", quantity := none, unitprice := some (JsNum.finite 1000) }

/-- A raw item with no unitprice field. -/
def itemNoPriceW : RawItem :=
  { title := some "X", quantity := some (JsNum.finite 1), unitprice := none }

/-- The validated delivery block produced from rawDeliveryW. -/
def ddW : DeliveryData :=
  { name := "A", phone := "123", address := "X", commune := "coquimbo", notes := "" }

/-- The validated client data produced from the scenario submission. -/
def cdW : ClientData := { delivery := some ddW, pickup := none }

/-- The record of o1 after reconciling pW at time 10. -/
def mergedW : Order :=
  { status := "approved", items := ordW.items, shippingOption := ordW.shippingOption,
    shippingCost := ordW.shippingCost, delivery := ordW.delivery, pickup := ordW.pickup,
    createdAt := ordW.createdAt, updatedAt := 10, paymentId := some 7,
    paymentStatusDetail := some "accredited" }

theorem Store.get_set_self (s : Store) (k : String) (v : Order) :
    Store.get (Store.set s k v) k = some v := by
  induction s with
  | nil => simp [Store.set, Store.get]
  | cons hd t ih =>
    obtain ⟨k', v'⟩ := hd
    by_cases h : k' = k
    · simp [Store.set, h, Store.get]
    · simp [Store.set, h, Store.get, ih]

theorem Store.get_set_ne (s : Store) (k k' : String) (v : Order) (h : k ≠ k') :
    Store.get (Store.set s k v) k' = Store.get s k' := by
  induction s with
  | nil => simp [Store.set, Store.get, h]
  | cons hd t ih =>
    obtain ⟨a, b⟩ := hd
    by_cases ha : a = k
    · subst ha
      simp [Store.set, Store.get, h]
    · simp [Store.set, ha, Store.get, ih]

theorem optEqv_of_eq {x y : Option Order} (h : x = y) : OptEqvExceptUpdatedAt x y := by
  subst h
  cases x with
  | none => trivial
  | some a => exact ⟨rfl, rfl, rfl, rfl, rfl, rfl, rfl, rfl, rfl⟩

theorem applyPayment_twice_eqv (s : Store) (p : Payment) (t1 t2 : Nat) (oid : String) :
    OptEqvExceptUpdatedAt
      (Store.get (applyPayment (applyPayment s p t1) p t2) oid)
      (Store.get (applyPayment s p t1) oid) := by
  cases herx : p.external_reference with
  | none => exact optEqv_of_eq (by simp [applyPayment, herx])
  | some r =>
    by_cases hr : r = ""
    · exact optEqv_of_eq (by simp [applyPayment, herx, hr])
    · cases hget : Store.get s r with
      | none => exact optEqv_of_eq (by simp [applyPayment, herx, hr, hget])
      | some old =>
        have h1 : applyPayment s p t1 =
            Store.set s r { old with status := p.status, paymentId := some p.id,
                                     paymentStatusDetail := p.status_detail,
                                     updatedAt := t1 } := by
          simp [applyPayment, herx, hr, hget]
        rw [h1]
        have hg1 : Store.get
            (Store.set s r { old with status := p.status, paymentId := some p.id,
                                      paymentStatusDetail := p.status_detail,
                                      updatedAt := t1 }) r =
            some { old with status := p.status, paymentId := some p.id,
                            paymentStatusDetail := p.status_detail,
                            updatedAt := t1 } := Store.get_set_self s r _
        have h2 : applyPayment
            (Store.set s r { old with status := p.status, paymentId := some p.id,
                                      paymentStatusDetail := p.status_detail,
                                      updatedAt := t1 }) p t2 =
            Store.set
              (Store.set s r { old with status := p.status, paymentId := some p.id,
                                        paymentStatusDetail := p.status_detail,
                                        updatedAt := t1 }) r
              { old with status := p.status, paymentId := some p.id,
                         paymentStatusDetail := p.status_detail,
                         updatedAt := t2 } := by
          simp [applyPayment, herx, hr, hg1]
        rw [h2]
        by_cases ho : r = oid
        · subst ho
          rw [Store.get_set_self, hg1]
          exact ⟨rfl, rfl, rfl, rfl, rfl, rfl, rfl, rfl, rfl⟩
        · exact optEqv_of_eq (by rw [Store.get_set_ne _ _ _ _ ho])

/-- C1: reapplying the webhook reconciliation merge with the same payment
(same id, status, status detail and external reference) yields, for every
key of the order store, a record identical to the one after a single
application on every field except updatedAt. -/
theorem webhook_merge_idempotent (s : Store) (p p' : Payment) (t1 t2 : Nat) (oid : String)
    (hid : p'.id = p.id) (hst : p'.status = p.status)
    (hsd : p'.status_detail = p.status_detail)
    (href : p'.external_reference = p.external_reference) :
    OptEqvExceptUpdatedAt
      (Store.get (applyPayment (applyPayment s p t1) p' t2) oid)
      (Store.get (applyPayment s p t1) oid) := by
  have hp : p' = p := by
    cases p
    cases p'
    simp_all [Payment.mk.injEq]
  rw [hp]
  exact applyPayment_twice_eqv s p t1 t2 oid

/-- Witness for C1 at a concrete store, payment and pair of times. -/
theorem webhook_merge_idempotent_witness :
    OptEqvExceptUpdatedAt
      (Store.get (applyPayment (applyPayment sW pW 10) pW 20) "o1")
      (Store.get (applyPayment sW pW 10) "o1") :=
  webhook_merge_idempotent sW pW pW 10 20 "o1" rfl rfl rfl rfl

theorem applyPayment_no_match (s : Store) (p : Payment) (now : Nat)
    (href : ∀ r, p.external_reference = some r → r = "" ∨ Store.get s r = none) :
    applyPayment s p now = s := by
  cases herx : p.external_reference with
  | none => simp [applyPayment, herx]
  | some r =>
    rcases href r herx with h | h
    · simp [applyPayment, herx, h]
    · by_cases hr : r = ""
      · simp [applyPayment, herx, hr]
      · simp [applyPayment, herx, hr, h]

/-- C2: a webhook notification whose fetched payment has no external
reference, an empty one, or one matching no stored order leaves the store
unchanged, and the handler responds 200. -/
theorem webhook_unknown_ref_noop (hasToken : Bool) (s : Store) (w : WebhookReq)
    (p : Payment) (now : Nat)
    (href : ∀ r, p.external_reference = some r → r = "" ∨ Store.get s r = none) :
    webhookHandler hasToken s w (.ok p) now = (200, s) := by
  have happ := applyPayment_no_match s p now href
  simp [webhookHandler, happ]

/-- Witness for C2: a payment referencing the absent order zzz. -/
theorem webhook_unknown_ref_noop_witness :
    webhookHandler true sW whW (.ok pUnknownW) 30 = (200, sW) :=
  webhook_unknown_ref_noop true sW whW pUnknownW 30
    (fun r hr => by
      injection hr with h
      subst h
      exact Or.inr rfl)

/-- C3: once validation succeeds, the order record is written to the
store with status created and createdAt equal to updatedAt, and the store
the external call sees (storeAfterInsert) is the final store whatever the
call returns: the write happens before the processor is contacted. -/
theorem create_stores_created_before_call (cfg : Config) (s : Store) (body : CreateReq)
    (orderId : String) (now : Nat) (v : ValidatedSubmission)
    (hv : createPreferenceStage cfg body = .ok v) :
    (∀ cr, (createPreference cfg s body orderId now cr).2 =
        storeAfterInsert cfg s body orderId now) ∧
    Store.get (storeAfterInsert cfg s body orderId now) orderId =
      some (buildOrder v now) ∧
    (buildOrder v now).status = "created" ∧
    (buildOrder v now).createdAt = now ∧
    (buildOrder v now).updatedAt = now := by
  refine ⟨?_, ?_, rfl, rfl, rfl⟩
  · intro cr
    cases cr <;> simp [createPreference, storeAfterInsert, hv]
  · simp [storeAfterInsert, hv, Store.get_set_self]

/-- Witness for C3 on the spec scenario submission. -/
theorem create_stores_created_before_call_witness :
    (createPreference cfgW [] bodyW "o1" 5 (.ok prefW)).2 =
      storeAfterInsert cfgW [] bodyW "o1" 5 ∧
    Store.get (storeAfterInsert cfgW [] bodyW "o1" 5) "o1" = some (buildOrder vW 5) ∧
    (buildOrder vW 5).status = "created" ∧
    (buildOrder vW 5).createdAt = 5 ∧
    (buildOrder vW 5).updatedAt = 5 :=
  have h := create_stores_created_before_call cfgW [] bodyW "o1" 5 vW rfl
  ⟨h.1 (.ok prefW), h.2.1, h.2.2.1, h.2.2.2.1, h.2.2.2.2⟩

/-- C4: when the preference call fails, the response carries the upstream
status (500 when absent) and the provider detail body, and the order is
still in the store in status created. -/
theorem create_upstream_failure_keeps_order (cfg : Config) (s : Store) (body : CreateReq)
    (orderId : String) (now : Nat) (v : ValidatedSubmission) (e : UpstreamErr)
    (hv : createPreferenceStage cfg body = .ok v) :
    (createPreference cfg s body orderId now (.error e)).1 =
      .upstreamError (upstreamStatus e) "No se pudo crear preferencia" (upstreamDetail e) ∧
    ((createPreference cfg s body orderId now (.error e)).1).httpStatus =
      upstreamStatus e ∧
    Store.get (createPreference cfg s body orderId now (.error e)).2 orderId =
      some (buildOrder v now) ∧
    (buildOrder v now).status = "created" := by
  refine ⟨?_, ?_, ?_, rfl⟩
  · simp [createPreference, hv]
  · simp [createPreference, hv, CPResponse.httpStatus]
  · simp [createPreference, hv, Store.get_set_self]

/-- Witness for C4: a 422 provider rejection on the scenario submission. -/
theorem create_upstream_failure_keeps_order_witness :
    (createPreference cfgW [] bodyW "o1" 5
        (.error ⟨some 422, some "mp says no", "Request failed"⟩)).1 =
      .upstreamError 422 "No se pudo crear preferencia" "mp says no" ∧
    ((createPreference cfgW [] bodyW "o1" 5
        (.error ⟨some 422, some "mp says no", "Request failed"⟩)).1).httpStatus = 422 ∧
    Store.get (createPreference cfgW [] bodyW "o1" 5
        (.error ⟨some 422, some "mp says no", "Request failed"⟩)).2 "o1" =
      some (buildOrder vW 5) ∧
    (buildOrder vW 5).status = "created" :=
  create_upstream_failure_keeps_order cfgW [] bodyW "o1" 5 vW
    ⟨some 422, some "mp says no", "Request failed"⟩ rfl

theorem stage_ok_inv (cfg : Config) (body : CreateReq) (v : ValidatedSubmission)
    (hv : createPreferenceStage cfg body = .ok v) :
    cfg.mpAccessToken ≠ "" ∧
    v.shippingOption = normalizeShippingOption body.shippingOption ∧
    validateAndBuildMpItems (body.items.getD (ItemsField.arr [])) = .ok v.mpItems ∧
    validateAndBuildClientData v.shippingOption body.delivery body.pickup =
      .ok v.client ∧
    v.shipCost = (if v.shippingOption = "delivery" then cfg.deliveryCost
                  else JsNum.finite 0) ∧
    v.finalItems = (if JsNum.jsLt (JsNum.finite 0) v.shipCost then
                      v.mpItems ++ [envioItem v.shipCost]
                    else v.mpItems) := by
  by_cases htok : cfg.mpAccessToken = ""
  · simp [createPreferenceStage, htok] at hv
  · simp only [createPreferenceStage, if_neg htok] at hv
    cases hitems : validateAndBuildMpItems (body.items.getD (ItemsField.arr [])) with
    | error e => rw [hitems] at hv; simp at hv
    | ok mp =>
      rw [hitems] at hv
      cases hclient : validateAndBuildClientData (normalizeShippingOption body.shippingOption)
          body.delivery body.pickup with
      | error msg => rw [hclient] at hv; simp at hv
      | ok cl =>
        rw [hclient] at hv
        simp only [Except.ok.injEq] at hv
        subst hv
        exact ⟨htok, rfl, rfl, hclient, rfl, rfl⟩

/-- C5: the stored shipping cost is computed server-side from the
configured fee (0 for pickup) whatever shippingCost field the client
sends, and the synthetic delivery line item is appended exactly when the
fee is positive. -/
theorem shipping_cost_server_side (cfg : Config) (body : CreateReq)
    (v : ValidatedSubmission)
    (hv : createPreferenceStage cfg body = .ok v) :
    (∀ sc, createPreferenceStage cfg { body with shippingCost := sc } = .ok v) ∧
    (v.shippingOption = "delivery" →
      v.shipCost = cfg.deliveryCost ∧
      (JsNum.jsLt (JsNum.finite 0) cfg.deliveryCost = true →
        v.finalItems = v.mpItems ++ [envioItem cfg.deliveryCost]) ∧
      (JsNum.jsLt (JsNum.finite 0) cfg.deliveryCost = false →
        v.finalItems = v.mpItems)) ∧
    (v.shippingOption = "pickup" →
      v.shipCost = JsNum.finite 0 ∧ v.finalItems = v.mpItems) ∧
    (∀ now, (buildOrder v now).shippingCost = v.shipCost ∧
            (buildOrder v now).items = v.finalItems) ∧
    (∀ c, (envioItem c).title = "Envío (Delivery)" ∧
          (envioItem c).quantity = JsNum.finite 1 ∧
          (envioItem c).unit_price = c) := by
  obtain ⟨htok, hship, hitems, hclient, hcost, hfinal⟩ := stage_ok_inv cfg body v hv
  refine ⟨fun sc => hv, ?_, ?_, fun now => ⟨rfl, rfl⟩, fun c => ⟨rfl, rfl, rfl⟩⟩
  · intro hdel
    have hcost' : v.shipCost = cfg.deliveryCost := by
      rw [hcost, hdel]
      simp
    refine ⟨hcost', ?_, ?_⟩
    · intro hpos
      rw [hfinal, hcost', if_pos hpos]
    · intro hneg
      rw [hfinal, hcost', hneg]
      simp
  · intro hpick
    have hcost' : v.shipCost = JsNum.finite 0 := by
      rw [hcost, hpick]
      simp
    have hz : JsNum.jsLt (JsNum.finite 0) (JsNum.finite 0) = false := by decide
    refine ⟨hcost', ?_⟩
    rw [hfinal, hcost', hz]
    simp

/-- Witness for C5 on the spec scenario: the client-sent shippingCost is
ignored and the 4990 delivery line is appended. -/
theorem shipping_cost_server_side_witness :
    createPreferenceStage cfgW { bodyW with shippingCost := some (JsNum.finite 1) } =
      .ok vW ∧
    vW.shipCost = cfgW.deliveryCost ∧
    vW.finalItems = vW.mpItems ++ [envioItem cfgW.deliveryCost] :=
  have h := shipping_cost_server_side cfgW bodyW vW rfl
  ⟨h.1 (some (JsNum.finite 1)), (h.2.1 rfl).1, (h.2.1 rfl).2.1 rfl⟩

theorem itemInvalid_buildMpItem_iff (i : RawItem) :
    itemInvalid (buildMpItem i) = true ↔ rawItemBad i := by
  simp only [itemInvalid, buildMpItem, rawItemBad, Bool.or_eq_true, beq_iff_eq,
    Bool.not_eq_true']
  tauto

theorem validateItems_err_of_bad (f : ItemsField) (h : itemsFieldBad f) :
    ∃ e, validateAndBuildMpItems f = .error e := by
  rcases h with h | ⟨l, rfl, hl⟩
  · subst h
    exact ⟨_, rfl⟩
  · rcases hl with rfl | h50 | ⟨i, hi, hbad⟩
    · exact ⟨_, rfl⟩
    · have hne : l.isEmpty = false := by
        cases l with
        | nil => simp at h50
        | cons a t => rfl
      refine ⟨⟨"Demasiados items (max 50)", none⟩, ?_⟩
      simp [validateAndBuildMpItems, hne, h50]
    · have hne : l.isEmpty = false := by
        cases l with
        | nil => simp at hi
        | cons a t => rfl
      have hex : ∃ a ∈ l, itemInvalid (buildMpItem a) = true :=
        ⟨i, hi, (itemInvalid_buildMpItem_iff i).mpr hbad⟩
      by_cases h50 : l.length > 50
      · exact ⟨⟨"Demasiados items (max 50)", none⟩, by simp [validateAndBuildMpItems, hne, h50]⟩
      · exact ⟨⟨"items inválidos", some (l.map buildMpItem)⟩,
          by simp [validateAndBuildMpItems, hne, h50, hex]⟩

/-- C6: a submission whose items field is not an array, empty, longer
than 50, or contains an item with empty trimmed title, non-finite or
non-positive or over-99 coerced quantity, or non-finite or non-positive
coerced unit price, is rejected with HTTP 400 and the store is untouched
(under a configured access token). -/
theorem invalid_items_rejected (cfg : Config) (s : Store) (body : CreateReq)
    (orderId : String) (now : Nat) (cr : Except UpstreamErr PrefData)
    (htok : cfg.mpAccessToken ≠ "")
    (hbad : itemsFieldBad (body.items.getD (ItemsField.arr []))) :
    ((createPreference cfg s body orderId now cr).1).httpStatus = 400 ∧
    (createPreference cfg s body orderId now cr).2 = s := by
  obtain ⟨e, he⟩ := validateItems_err_of_bad _ hbad
  have hstage : createPreferenceStage cfg body =
      .error (.badRequest e.error e.mpItems) := by
    simp only [createPreferenceStage, if_neg htok, he]
  rw [createPreference, hstage]
  exact ⟨rfl, rfl⟩

/-- Witness for C6: an empty item list is rejected with 400 and the
store is unchanged. -/
theorem invalid_items_rejected_witness :
    ((createPreference cfgW sW { bodyW with items := some (.arr []) } "o2" 6
        (.ok prefW)).1).httpStatus = 400 ∧
    (createPreference cfgW sW { bodyW with items := some (.arr []) } "o2" 6
        (.ok prefW)).2 = sW :=
  invalid_items_rejected cfgW sW { bodyW with items := some (.arr []) } "o2" 6
    (.ok prefW) (by decide) (Or.inr ⟨[], rfl, Or.inl rfl⟩)

/-- C10: a raw item with no quantity field coerces to the default
quantity 1 and passes validation whenever its title and unit price are
valid, while a missing unitprice coerces to 0 and forces rejection of any
list containing the item. -/
theorem missing_quantity_defaults_to_one (i : RawItem)
    (hq : i.quantity = none)
    (ht : toSafeString i.title 120 ≠ "")
    (hp1 : (toSafeNumber i.unitprice (JsNum.finite 0)).isFinite = true)
    (hp2 : JsNum.jsLe (toSafeNumber i.unitprice (JsNum.finite 0)) (JsNum.finite 0) = false) :
    (buildMpItem i).quantity = JsNum.finite 1 ∧
    validateAndBuildMpItems (ItemsField.arr [i]) = .ok [buildMpItem i] ∧
    (∀ j : RawItem, j.unitprice = none →
      (buildMpItem j).unit_price = JsNum.finite 0) ∧
    (∀ j l, j.unitprice = none → j ∈ l →
      ∀ ms, validateAndBuildMpItems (ItemsField.arr l) ≠ .ok ms) := by
  have hq1 : (buildMpItem i).quantity = JsNum.finite 1 := by
    simp [buildMpItem, toSafeNumber, hq, JsNum.isFinite]
  refine ⟨hq1, ?_, ?_, ?_⟩
  · have hinv : itemInvalid (buildMpItem i) = false := by
      simp only [itemInvalid, hq1, Bool.or_eq_false_iff, Bool.not_eq_true',
        beq_eq_false_iff_ne, ne_eq]
      refine ⟨⟨⟨⟨⟨?_, rfl⟩, by decide⟩, by decide⟩, by simpa [buildMpItem] using hp1⟩,
        by simpa [buildMpItem] using hp2⟩
      simpa [buildMpItem] using ht
    simp [validateAndBuildMpItems, hinv]
  · intro j hj
    simp [buildMpItem, toSafeNumber, hj, JsNum.isFinite]
  · intro j l hj hmem ms
    have hbadj : itemInvalid (buildMpItem j) = true := by
      have : (buildMpItem j).unit_price = JsNum.finite 0 := by
        simp [buildMpItem, toSafeNumber, hj, JsNum.isFinite]
      simp [itemInvalid, this, JsNum.jsLe]
    have hne : l.isEmpty = false := by
      cases l with
      | nil => simp at hmem
      | cons a t => rfl
    have hex : ∃ a ∈ l, itemInvalid (buildMpItem a) = true := ⟨j, hmem, hbadj⟩
    by_cases h50 : l.length > 50
    · simp [validateAndBuildMpItems, hne, h50]
    · simp [validateAndBuildMpItems, hne, h50, hex]

/-- Witness for C10: a Bread item with no quantity validates to quantity
1; an item with no unitprice is rejected. -/
theorem missing_quantity_defaults_to_one_witness :
    (buildMpItem itemNoQtyW).quantity = JsNum.finite 1 ∧
    validateAndBuildMpItems (ItemsField.arr [itemNoQtyW]) = .ok [buildMpItem itemNoQtyW] ∧
    (buildMpItem itemNoPriceW).unit_price = JsNum.finite 0 ∧
    validateAndBuildMpItems (ItemsField.arr [itemNoPriceW]) ≠ .ok [] :=
  have h := missing_quantity_defaults_to_one itemNoQtyW rfl (by decide) rfl rfl
  ⟨h.1, h.2.1, h.2.2.1 itemNoPriceW rfl,
    h.2.2.2 itemNoPriceW [itemNoPriceW] rfl (List.mem_singleton.mpr rfl) []⟩

theorem keyDescLe_trans (key : EnrichedOrder → Nat) :
    ∀ a b c, keyDescLe key a b → keyDescLe key b c → keyDescLe key a c := by
  intro a b c hab hbc
  simp only [keyDescLe, decide_eq_true_eq] at hab hbc ⊢
  omega

theorem keyDescLe_total (key : EnrichedOrder → Nat) :
    ∀ a b, keyDescLe key a b || keyDescLe key b a := by
  intro a b
  simp only [keyDescLe, Bool.or_eq_true, decide_eq_true_eq]
  omega

theorem mergeSort_filter_key_eq (l : List EnrichedOrder) (key : EnrichedOrder → Nat)
    (k : Nat) :
    (l.mergeSort (keyDescLe key)).filter (fun e => key e == k) =
      l.filter (fun e => key e == k) := by
  have hpw : (l.filter (fun e => key e == k)).Pairwise
      (fun a b => keyDescLe key a b = true) := by
    apply List.pairwise_of_forall_mem_list
    intro a ha b hb
    have ha' : key a = k := by simpa using (List.mem_filter.mp ha).2
    have hb' : key b = k := by simpa using (List.mem_filter.mp hb).2
    simp [keyDescLe, ha', hb']
  have hsub : List.Sublist (l.filter (fun e => key e == k))
      (l.mergeSort (keyDescLe key)) :=
    List.sublist_mergeSort (keyDescLe_trans key) (keyDescLe_total key) hpw
      (List.filter_sublist l)
  have hsub2 : List.Sublist (l.filter (fun e => key e == k))
      ((l.mergeSort (keyDescLe key)).filter (fun e => key e == k)) := by
    have h := hsub.filter (fun e => key e == k)
    simpa [List.filter_filter] using h
  have hperm : List.Perm ((l.mergeSort (keyDescLe key)).filter (fun e => key e == k))
      (l.filter (fun e => key e == k)) :=
    (List.mergeSort_perm l _).filter _
  exact (hsub2.eq_of_length hperm.length_eq.symm).symm

/-- C7: GET /orders returns a permutation of the enriched store sorted by
createdAt descending, with ties kept in insertion order (for every key
value, the equal-key entries appear exactly as in the store); GET
/payments returns exactly the approved orders, sorted by updatedAt
(falling back to createdAt) descending. -/
theorem list_endpoints_sorted (s : Store) :
    List.Perm (listOrdersEndpoint s) (s.map enrich) ∧
    (listOrdersEndpoint s).Pairwise (fun a b => createdKey b ≤ createdKey a) ∧
    (∀ k, (listOrdersEndpoint s).filter (fun e => createdKey e == k) =
       (s.map enrich).filter (fun e => createdKey e == k)) ∧
    (∀ e, e ∈ listPaymentsEndpoint s → e.order.status = "approved") ∧
    List.Perm (listPaymentsEndpoint s)
      ((s.map enrich).filter (fun e => e.order.status == "approved")) ∧
    (listPaymentsEndpoint s).Pairwise (fun a b => updatedKey b ≤ updatedKey a) := by
  refine ⟨List.mergeSort_perm _ _, ?_, ?_, ?_, List.mergeSort_perm _ _, ?_⟩
  · exact (List.sorted_mergeSort (keyDescLe_trans createdKey) (keyDescLe_total createdKey)
      (s.map enrich)).imp (fun h => by simpa [keyDescLe] using h)
  · intro k
    exact mergeSort_filter_key_eq (s.map enrich) createdKey k
  · intro e he
    have : e ∈ (s.map enrich).filter (fun e => e.order.status == "approved") := by
      simpa [listPaymentsEndpoint] using he
    simpa using (List.mem_filter.mp this).2
  · exact (List.sorted_mergeSort (keyDescLe_trans updatedKey) (keyDescLe_total updatedKey)
      _).imp (fun h => by simpa [keyDescLe] using h)

/-- Witness for C7 on the concrete one-order approved store, including a
membership instance for the approved-only conjunct. -/
theorem list_endpoints_sorted_witness :
    List.Perm (listOrdersEndpoint sApprovedW) (sApprovedW.map enrich) ∧
    (enrich ("o1", mergedW)).order.status = "approved" ∧
    List.Perm (listPaymentsEndpoint sApprovedW)
      ((sApprovedW.map enrich).filter (fun e => e.order.status == "approved")) :=
  have h := list_endpoints_sorted sApprovedW
  have hmem : enrich ("o1", mergedW) ∈ listPaymentsEndpoint sApprovedW := by
    have hpe : listPaymentsEndpoint sApprovedW = [enrich ("o1", mergedW)] := by
      unfold listPaymentsEndpoint
      rw [show (sApprovedW.map enrich).filter (fun e => e.order.status == "approved") =
          [enrich ("o1", mergedW)] from rfl]
      exact List.mergeSort_singleton _
    rw [hpe]
    exact List.mem_singleton.mpr rfl
  ⟨h.1, h.2.2.2.1 (enrich ("o1", mergedW)) hmem, h.2.2.2.2.1⟩

theorem status_preserved_step (s : Store) (op : Op) (hop : OpOk s op) (oid : String)
    (o : Order) (hget : Store.get s oid = some o) (hne : o.status ≠ "created") :
    ∃ o', Store.get (stepOp s op) oid = some o' ∧ o'.status ≠ "created" := by
  cases op with
  | create cfg body orderId now cr =>
    have hfresh : Store.get s orderId = none := hop
    have hneid : orderId ≠ oid := by
      intro h
      rw [h, hget] at hfresh
      exact Option.noConfusion hfresh
    cases hstage : createPreferenceStage cfg body with
    | error resp =>
      refine ⟨o, ?_, hne⟩
      cases cr <;> simp [stepOp, createPreference, hstage, hget]
    | ok v =>
      refine ⟨o, ?_, hne⟩
      have hstep : stepOp s (.create cfg body orderId now cr) =
          Store.set s orderId (buildOrder v now) := by
        cases cr <;> simp [stepOp, createPreference, hstage]
      rw [hstep, Store.get_set_ne _ _ _ _ hneid, hget]
  | webhook hasToken w fetched now =>
    have hstep : stepOp s (.webhook hasToken w fetched now) =
        (webhookHandler hasToken s w fetched now).2 := rfl
    rw [hstep]
    unfold webhookHandler
    by_cases h1 : strFalsy w.notifId
    · exact ⟨o, by simp [h1, hget], hne⟩
    · by_cases h2 : w.topicSkip
      · exact ⟨o, by simp [h1, h2, hget], hne⟩
      · cases hcase : hasToken with
        | false => exact ⟨o, by simp [h1, h2, hget], hne⟩
        | true =>
          cases fetched with
          | error msg => exact ⟨o, by simp [h1, h2, hget], hne⟩
          | ok p =>
            have hps : p.status ≠ "created" := hop p rfl
            simp only [h1, h2, Bool.not_true, if_neg, Bool.false_eq_true,
              not_false_eq_true, if_false]
            have : ∃ o', Store.get (applyPayment s p now) oid = some o' ∧
                o'.status ≠ "created" := by
              cases herx : p.external_reference with
              | none => exact ⟨o, by simp [applyPayment, herx, hget], hne⟩
              | some r =>
                by_cases hr : r = ""
                · exact ⟨o, by simp [applyPayment, herx, hr, hget], hne⟩
                · cases hgr : Store.get s r with
                  | none => exact ⟨o, by simp [applyPayment, herx, hr, hgr, hget], hne⟩
                  | some old =>
                    have happ : applyPayment s p now = Store.set s r
                        { old with status := p.status, paymentId := some p.id,
                                   paymentStatusDetail := p.status_detail,
                                   updatedAt := now } := by
                      simp [applyPayment, herx, hr, hgr]
                    by_cases hro : r = oid
                    · subst hro
                      refine ⟨_, by rw [happ, Store.get_set_self], hps⟩
                    · exact ⟨o, by rw [happ, Store.get_set_ne _ _ _ _ hro, hget], hne⟩
            simpa using this

theorem status_preserved_run (ops : List Op) : ∀ (s : Store) (oid : String) (o : Order),
    TraceOk s ops → Store.get s oid = some o → o.status ≠ "created" →
    ∃ o', Store.get (runOps s ops) oid = some o' ∧ o'.status ≠ "created" := by
  induction ops with
  | nil => exact fun s oid o _ hget hne => ⟨o, hget, hne⟩
  | cons op ops ih =>
    intro s oid o ht hget hne
    obtain ⟨hop, ht'⟩ := ht
    obtain ⟨o', h1, h2⟩ := status_preserved_step s op hop oid o hget hne
    exact ih (stepOp s op) oid o' ht' h1 h2

/-- C8: an order enters the store in status created; creation never
touches an existing record (fresh ids); the webhook merge sets exactly
the provider-reported status; and under the trace assumptions (fresh ids,
provider statuses never "created") an order that has left "created" never
shows status "created" again. -/
theorem status_lifecycle :
    (∀ cfg s body orderId now cr v, createPreferenceStage cfg body = .ok v →
        Store.get (stepOp s (.create cfg body orderId now cr)) orderId =
          some (buildOrder v now) ∧ (buildOrder v now).status = "created") ∧
    (∀ cfg s body orderId now cr oid o, Store.get s orderId = none →
        Store.get s oid = some o →
        Store.get (stepOp s (.create cfg body orderId now cr)) oid = some o) ∧
    (∀ s p now oid old, p.external_reference = some oid → oid ≠ "" →
        Store.get s oid = some old →
        ∃ o', Store.get (applyPayment s p now) oid = some o' ∧
          o'.status = p.status) ∧
    (∀ s ops oid o, TraceOk s ops → Store.get s oid = some o →
        o.status ≠ "created" →
        ∃ o', Store.get (runOps s ops) oid = some o' ∧ o'.status ≠ "created") := by
  refine ⟨?_, ?_, ?_, fun s ops oid o ht hget hne =>
    status_preserved_run ops s oid o ht hget hne⟩
  · intro cfg s body orderId now cr v hv
    have hstep : stepOp s (.create cfg body orderId now cr) =
        Store.set s orderId (buildOrder v now) := by
      cases cr <;> simp [stepOp, createPreference, hv]
    rw [hstep, Store.get_set_self]
    exact ⟨rfl, rfl⟩
  · intro cfg s body orderId now cr oid o hfresh hget
    have hneid : orderId ≠ oid := by
      intro h
      rw [h, hget] at hfresh
      exact Option.noConfusion hfresh
    cases hstage : createPreferenceStage cfg body with
    | error resp =>
      cases cr <;> simp [stepOp, createPreference, hstage, hget]
    | ok v =>
      have hstep : stepOp s (.create cfg body orderId now cr) =
          Store.set s orderId (buildOrder v now) := by
        cases cr <;> simp [stepOp, createPreference, hstage]
      rw [hstep, Store.get_set_ne _ _ _ _ hneid, hget]
  · intro s p now oid old herx hne hget
    have happ : applyPayment s p now = Store.set s oid
        { old with status := p.status, paymentId := some p.id,
                   paymentStatusDetail := p.status_detail, updatedAt := now } := by
      simp [applyPayment, herx, hne, hget]
    refine ⟨_, by rw [happ, Store.get_set_self], rfl⟩

/-- Witness for C8: creation of the scenario order, non-interference with
o1, the webhook merge on o1, and preservation of non-created status along
a one-webhook trace. -/
theorem status_lifecycle_witness :
    (Store.get (stepOp [] (.create cfgW bodyW "o1" 5 (.ok prefW))) "o1" =
        some (buildOrder vW 5) ∧ (buildOrder vW 5).status = "created") ∧
    Store.get (stepOp sW (.create cfgW bodyW "o2" 7 (.ok prefW))) "o1" = some ordW ∧
    (∃ o', Store.get (applyPayment sW pW 10) "o1" = some o' ∧
        o'.status = pW.status) ∧
    (∃ o', Store.get (runOps sApprovedW [.webhook true whW (.ok pW) 30]) "o1" =
        some o' ∧ o'.status ≠ "created") :=
  have h := status_lifecycle
  have htrace : TraceOk sApprovedW [.webhook true whW (.ok pW) 30] :=
    ⟨fun p hp => by
        injection hp with h'
        subst h'
        decide,
      trivial⟩
  ⟨h.1 cfgW [] bodyW "o1" 5 (.ok prefW) vW rfl,
    h.2.1 cfgW sW bodyW "o2" 7 (.ok prefW) "o1" ordW rfl rfl,
    h.2.2.1 sW pW 10 "o1" ordW rfl (by decide) rfl,
    h.2.2.2 sApprovedW [.webhook true whW (.ok pW) 30] "o1" mergedW htrace rfl
      (by decide)⟩

/-- C9 counterexample: the commune "coquimbo" survives customer-detail
validation verbatim; the canonical label "Coquimbo" is produced only by
the projection table, so the validated (stored) commune is not the
canonical label. -/
theorem commune_validation_counterexample :
    validateAndBuildClientData "delivery" (some rawDeliveryW) none = .ok cdW ∧
    cdW.delivery = some ddW ∧
    ddW.commune = "coquimbo" ∧
    normalizeCommuneLabel "coquimbo" = "Coquimbo" ∧
    ("coquimbo" : String) ≠ "Coquimbo" :=
  ⟨rfl, rfl, rfl, rfl, by decide⟩

/-- C9 amended: customer-detail validation stores the trimmed,
length-capped commune verbatim; the canonical-label normalization is
applied in the detail projection (buildDetailObject) on read, with
"coquimbo" mapping to "Coquimbo", the three la-serena spellings mapping
to "La Serena", and unrecognized communes passing through verbatim. -/
theorem commune_normalized_in_projection
    (rd : Option RawDelivery) (pk : Option RawPickup) (cd : ClientData)
    (dd : DeliveryData)
    (hv : validateAndBuildClientData "delivery" rd pk = .ok cd)
    (hd : cd.delivery = some dd) :
    dd.commune = toSafeString (rd.bind (·.commune)) 40 ∧
    (∀ o : Order, o.shippingOption ≠ "pickup" →
      (buildDetailObject o).commune =
        normalizeCommuneLabel (jsOrStr (o.delivery.map (·.commune)) "")) ∧
    normalizeCommuneLabel "coquimbo" = "Coquimbo" ∧
    normalizeCommuneLabel "la-serena" = "La Serena" ∧
    normalizeCommuneLabel "laserena" = "La Serena" ∧
    normalizeCommuneLabel "la serena" = "La Serena" ∧
    (∀ c, jsToLower (jsTrim c) ≠ "" →
      ¬(jsToLower (jsTrim c) = "la-serena" ∨ jsToLower (jsTrim c) = "laserena" ∨
        jsToLower (jsTrim c) = "la serena" ∨ jsToLower (jsTrim c) = "coquimbo") →
      normalizeCommuneLabel c = c) := by
  refine ⟨?_, ?_, rfl, rfl, rfl, rfl, ?_⟩
  · simp only [validateAndBuildClientData, if_true] at hv
    split at hv
    · exact absurd hv (by simp)
    · simp only [Except.ok.injEq] at hv
      subst hv
      simp only [Option.some.injEq] at hd
      subst hd
      rfl
  · intro o ho
    simp [buildDetailObject, ho]
  · intro c h1 h2
    simp only [not_or] at h2
    obtain ⟨n1, n2, n3, n4⟩ := h2
    simp [normalizeCommuneLabel, h1, n1, n2, n3, n4]

/-- Witness for the amended C9 on the scenario submission and the stored
scenario order, with a pass-through commune instance. -/
theorem commune_normalized_in_projection_witness :
    ddW.commune = toSafeString ((some rawDeliveryW).bind (·.commune)) 40 ∧
    (buildDetailObject ordW).commune =
      normalizeCommuneLabel (jsOrStr (ordW.delivery.map (·.commune)) "") ∧
    normalizeCommuneLabel "coquimbo" = "Coquimbo" ∧
    normalizeCommuneLabel "Ovalle" = "Ovalle" :=
  have h := commune_normalized_in_projection (some rawDeliveryW) none cdW ddW rfl rfl
  ⟨h.1, h.2.1 ordW (by decide), h.2.2.1,
    h.2.2.2.2.2.2 "Ovalle" (by decide) (by decide)⟩
